import Mathlib

/-!
Shallow embedding of the terminal-command subsystem of the
qwen-coder-interface backend (`backend/services/terminal_service.py` and
`backend/utils/config.py`), together with theorems settling the claims
about command validation, one-shot execution, interactive sessions and
the file-tree walk.

Conventions of the embedding:
* Python dictionaries returned to callers are modelled as structures whose
  optional keys are `Option` fields; a field is `none` exactly when the
  corresponding key is absent from the dictionary the code builds.
* The mutable `active_processes` registry is modelled as an association
  list threaded through each operation; insertion and deletion mirror the
  dictionary operations of the code.
* Effects of the operating system (process spawn, completion, duration,
  exit status, stat results) are resolved into explicit input parameters,
  so every function is a total, executable Lean definition.
-/

namespace QwenTerm

/-- Configuration fields of `Settings` (backend/utils/config.py) consumed by
the terminal subsystem, with their default values. -/
structure Settings where
  terminal_max_output : Nat := 10000
  terminal_timeout : Nat := 30
  terminal_allowed_commands : List String :=
    ["ls", "pwd", "cd", "cat", "echo", "grep", "find",
     "python", "pip", "npm", "node", "git", "docker"]
  terminal_forbidden_patterns : List String :=
    ["rm -rf /", "sudo", "chmod 777", "curl | bash"]

/-- Default settings, every field at its config.py default. -/
def defaultSettings : Settings := {}

/-- Boolean test that `needle` occurs as a contiguous run at the start of
`hay`; helper for the Python substring test. -/
def isPrefixList : List Char → List Char → Bool
  | [], _ => true
  | _ :: _, [] => false
  | a :: as, b :: bs => a == b && isPrefixList as bs

/-- Boolean test that `needle` occurs contiguously anywhere in `hay`;
helper for the Python substring test. -/
def containsSub (needle : List Char) : List Char → Bool
  | [] => needle.isEmpty
  | b :: bs => isPrefixList needle (b :: bs) || containsSub needle bs

/-- The Python expression `needle in hay` on strings: substring
containment over code points. -/
def strContains (needle hay : String) : Bool :=
  containsSub needle.data hay.data

/-- The Python expression `s[:n]` on a string: the first `n` code points. -/
def strTake (s : String) (n : Nat) : String :=
  String.mk (s.data.take n)

/-- The single-quote character, written by code point. -/
def squoteChar : Char := Char.ofNat 39

/-- The double-quote character, written by code point. -/
def dquoteChar : Char := Char.ofNat 34

/-- The backslash character, written by code point. -/
def backslashChar : Char := Char.ofNat 92

/-- The characters `shlex` treats as token-separating whitespace:
space, tab, carriage return, line feed. -/
def shlexWhitespace (c : Char) : Bool :=
  c == Char.ofNat 32 || c == Char.ofNat 9 || c == Char.ofNat 13 || c == Char.ofNat 10

/-- States of the `shlex` posix tokenizer: between tokens, inside a bare
word, inside single or double quotes, and after an escape character met in
a word or inside double quotes. -/
inductive ShlexState where
  | ws
  | word
  | sq
  | dq
  | esc
  | escDq
deriving DecidableEq

/-- One pass of the `shlex.split` posix state machine
(`shlex.split(command)` in `_validate_command`). Arguments: remaining
input, state, whether the current token saw a quote, current token
(reversed), emitted tokens (reversed). Errors carry the message of the
`ValueError` Python raises. -/
def shlexAux : List Char → ShlexState → Bool → List Char → List String →
    Except String (List String)
  | [], .ws, _, _, acc => .ok acc.reverse
  | [], .word, quoted, tok, acc =>
    if quoted || !tok.isEmpty then .ok ((String.mk tok.reverse) :: acc).reverse
    else .ok acc.reverse
  | [], .sq, _, _, _ => .error "No closing quotation"
  | [], .dq, _, _, _ => .error "No closing quotation"
  | [], .esc, _, _, _ => .error "No escaped character"
  | [], .escDq, _, _, _ => .error "No escaped character"
  | c :: rest, .ws, _, _, acc =>
    if shlexWhitespace c then shlexAux rest .ws false [] acc
    else if c == squoteChar then shlexAux rest .sq true [] acc
    else if c == dquoteChar then shlexAux rest .dq true [] acc
    else if c == backslashChar then shlexAux rest .esc false [] acc
    else shlexAux rest .word false [c] acc
  | c :: rest, .word, quoted, tok, acc =>
    if shlexWhitespace c then
      shlexAux rest .ws false [] ((String.mk tok.reverse) :: acc)
    else if c == squoteChar then shlexAux rest .sq true tok acc
    else if c == dquoteChar then shlexAux rest .dq true tok acc
    else if c == backslashChar then shlexAux rest .esc quoted tok acc
    else shlexAux rest .word quoted (c :: tok) acc
  | c :: rest, .sq, _, tok, acc =>
    if c == squoteChar then shlexAux rest .word true tok acc
    else shlexAux rest .sq true (c :: tok) acc
  | c :: rest, .dq, _, tok, acc =>
    if c == dquoteChar then shlexAux rest .word true tok acc
    else if c == backslashChar then shlexAux rest .escDq true tok acc
    else shlexAux rest .dq true (c :: tok) acc
  | c :: rest, .esc, quoted, tok, acc => shlexAux rest .word quoted (c :: tok) acc
  | c :: rest, .escDq, _, tok, acc =>
    if c == backslashChar || c == dquoteChar then shlexAux rest .dq true (c :: tok) acc
    else shlexAux rest .dq true (c :: backslashChar :: tok) acc

/-- `shlex.split(command)` with posix rules: whitespace-separated words,
single and double quoting, backslash escapes; unbalanced quoting or a
trailing escape raises, modelled as `Except.error`. -/
def shlexSplit (s : String) : Except String (List String) :=
  shlexAux s.data .ws false [] []

/-- `os.path.basename`: the part of the path after the final slash. -/
def basename (p : String) : String :=
  String.mk ((p.data.reverse.takeWhile (fun c => !(c == Char.ofNat 47))).reverse)

/-- A single-quote as a one-character string, used in the rejection
message of the allow-list check. -/
def squoteStr : String := String.singleton squoteChar

/-- `TerminalService._validate_command` (terminal_service.py lines 34-62):
first the forbidden-substring scan in configuration order, then shell-word
tokenization, the empty-token rejection, and the allow-list check on the
first token or its basename; a tokenization failure is caught and turned
into a rejection. Returns the pair `(is_valid, error_msg)`. -/
def validate_command (s : Settings) (command : String) : Bool × Option String :=
  match s.terminal_forbidden_patterns.find? (fun p => strContains p command) with
  | some pat => (false, some ("Command contains forbidden pattern: " ++ pat))
  | none =>
    match shlexSplit command with
    | .error e => (false, some ("Invalid command format: " ++ e))
    | .ok [] => (false, some "Empty command")
    | .ok (base_command :: _) =>
      if !s.terminal_allowed_commands.isEmpty then
        if s.terminal_allowed_commands.contains base_command then (true, none)
        else if s.terminal_allowed_commands.contains (basename base_command) then
          (true, none)
        else
          (false, some ("Command " ++ squoteStr ++ base_command ++ squoteStr ++
            " is not allowed"))
      else (true, none)

/-- Deletion of a key from the `active_processes` dictionary
(`del self.active_processes[k]`), modelled on an association list. -/
def dictDel (k : String) (d : List (String × Nat)) : List (String × Nat) :=
  d.filter (fun kv => !(kv.1 == k))

/-- Insertion into the `active_processes` dictionary
(`self.active_processes[k] = process`): the key is bound to the new
process, any previous binding of the key is gone. -/
def dictInsert (k : String) (v : Nat) (d : List (String × Nat)) :
    List (String × Nat) :=
  (k, v) :: dictDel k d

/-- Membership test `k in self.active_processes`. -/
def dictMem (k : String) (d : List (String × Nat)) : Bool :=
  d.any (fun kv => kv.1 == k)

/-- Lookup `self.active_processes[k]`. -/
def dictLookup (k : String) (d : List (String × Nat)) : Option Nat :=
  (d.find? (fun kv => kv.1 == k)).map (fun kv => kv.2)

/-- The result dictionary built by `execute_command`; optional fields are
keys that only some return paths put into the dictionary. The code never
writes a `truncated` key on any path, so that field is `none` in every
result the embedding produces. -/
structure ExecResult where
  success : Bool
  output : String
  exit_code : Int
  stdout : Option String := none
  stderr : Option String := none
  error : Option String := none
  truncated : Option Bool := none
deriving DecidableEq

/-- Resolved behaviour of the operating system for one
`create_subprocess_shell` call: the spawn raises, or the process runs for
`duration` seconds and ends with the given decoded output streams and
return code. -/
inductive ProcBehavior where
  | spawnFail (msg : String)
  | runs (duration : Nat) (stdoutText stderrText : String) (returncode : Int)

/-- Final state of the process a call dealt with: never spawned, still
running (a leak, which no path of the code produces), exited by itself and
reaped by `communicate`, or killed on timeout and then reaped. -/
inductive ProcFinal where
  | notSpawned
  | running
  | exitedReaped (code : Int)
  | killedReaped
deriving DecidableEq

/-- Everything observable when `execute_command` returns: the result
dictionary, the registry contents, and the fate of the spawned process. -/
structure ExecOutcome where
  result : ExecResult
  registry : List (String × Nat)
  procFinal : ProcFinal

/-- The Python expression `timeout or self.settings.terminal_timeout`
(line 96): `None` and `0` are falsy, so both fall back to the default. -/
def effTimeout (s : Settings) (timeout : Option Nat) : Nat :=
  match timeout with
  | none => s.terminal_timeout
  | some t => if t = 0 then s.terminal_timeout else t

/-- Truncation of one decoded stream (lines 124-127): strictly longer than
the cap is cut to the cap and marked, otherwise untouched. -/
def truncateOutput (maxOut : Nat) (s : String) : String :=
  if s.length > maxOut then strTake s maxOut ++ "\n... [output truncated]" else s

/-- `TerminalService.execute_command` (lines 64-165). `process_id` is the
execution id generated at line 109 and `pid` the handle stored with it;
`behavior` resolves what the operating system does. The branches mirror
the code: validation rejection before any spawn; the outer `except` around
a failing spawn; the inner `try` whose `finally` removes the registry
entry both after normal completion and after the timeout path that kills
and then drains the process. -/
def execute_command (s : Settings) (command : String) (process_id : String)
    (pid : Nat) (timeout : Option Nat) (behavior : ProcBehavior)
    (active_processes : List (String × Nat)) : ExecOutcome :=
  let v := validate_command s command
  if v.1 = false then
    { result := { success := false, error := v.2, output := "", exit_code := -1 },
      registry := active_processes, procFinal := .notSpawned }
  else
    let tmo := effTimeout s timeout
    match behavior with
    | .spawnFail msg =>
      { result := { success := false, error := some msg, output := "", exit_code := -1 },
        registry := active_processes, procFinal := .notSpawned }
    | .runs duration stdoutText stderrText returncode =>
      let reg1 := dictInsert process_id pid active_processes
      if duration ≤ tmo then
        let stdout_text := truncateOutput s.terminal_max_output stdoutText
        let stderr_text := truncateOutput s.terminal_max_output stderrText
        let output :=
          if stderr_text ≠ "" then stdout_text ++ "\n[stderr]:\n" ++ stderr_text
          else stdout_text
        { result := { success := returncode == 0, output := output,
                      exit_code := returncode, stdout := some stdout_text,
                      stderr := some stderr_text },
          registry := dictDel process_id reg1,
          procFinal := .exitedReaped returncode }
      else
        { result := { success := false,
                      error := some ("Command timed out after " ++ toString tmo ++
                        " seconds"),
                      output := "", exit_code := -1 },
          registry := dictDel process_id reg1,
          procFinal := .killedReaped }

/-- Resolved behaviour of `create_subprocess_exec` for an interactive
session: the spawn raises, or yields a process with the given pid. -/
inductive SpawnResult where
  | fail (msg : String)
  | ok (pid : Nat)

/-- The result dictionary of `create_interactive_session`. -/
structure CreateResult where
  success : Bool
  session_id : Option String := none
  pid : Option Nat := none
  error : Option String := none
deriving DecidableEq

/-- `TerminalService.create_interactive_session` (lines 167-197): spawn the
shell, store the process under `session_id` with no check whether that id
is already bound, and return success; a failing spawn is caught and
returned as an error result with the registry untouched. -/
def create_interactive_session (session_id : String) (spawn : SpawnResult)
    (active_processes : List (String × Nat)) :
    CreateResult × List (String × Nat) :=
  match spawn with
  | .fail msg => ({ success := false, error := some msg }, active_processes)
  | .ok pid =>
    ({ success := true, session_id := some session_id, pid := some pid },
     dictInsert session_id pid active_processes)

/-- Resolved behaviour of the write-then-read exchange in
`send_to_session`: a chunk arrives within the poll bound, the bounded read
times out, or the exchange raises. -/
inductive SendBehavior where
  | output (data : String)
  | timedOutPoll
  | ioFailure (msg : String)

/-- `TerminalService.send_to_session` (lines 199-228): unknown id returns
`None`; a read that yields data returns it decoded; a poll timeout returns
the empty string; any other failure is caught and returns `None`. -/
def send_to_session (session_id : String) (behavior : SendBehavior)
    (active_processes : List (String × Nat)) : Option String :=
  if !dictMem session_id active_processes then none
  else
    match behavior with
    | .output data => some data
    | .timedOutPoll => some ""
    | .ioFailure _ => none

/-- `TerminalService.kill_session` (lines 230-245): unknown id returns
`false` with the registry untouched; otherwise kill and reap the process,
remove the entry and return `true`; if the kill or the reap raises, the
exception is caught and `false` is returned with the entry still in
place. `killRaises` resolves whether the kill or reap raises. -/
def kill_session (session_id : String) (killRaises : Bool)
    (active_processes : List (String × Nat)) :
    Bool × List (String × Nat) :=
  if !dictMem session_id active_processes then (false, active_processes)
  else if killRaises then (false, active_processes)
  else (true, dictDel session_id active_processes)

/-- The filesystem as seen by `get_file_tree`: a file whose `stat` either
succeeds with a size and an ISO-formatted modification time or raises, or
a directory whose `iterdir` either yields the listed children (already in
sorted order) or raises `PermissionError`. -/
inductive FSNode where
  | file (name : String) (statResult : Option (Nat × String))
  | dir (name : String) (children : List FSNode) (permDenied : Bool)

/-- Name of a filesystem node (`Path.name`). -/
def fsName : FSNode → String
  | .file n _ => n
  | .dir n _ _ => n

/-- One node dictionary of the tree `build_tree` returns; optional fields
are keys only some paths add. -/
structure TreeNode where
  name : String
  path : String
  type : String
  children : Option (List TreeNode) := none
  error : Option String := none
  size : Option Nat := none
  modified : Option String := none

/-- The ignore test of `get_file_tree` (lines 259-263): a name is ignored
when it contains any ignore pattern as a substring. -/
def should_ignore (ignore_patterns : List String) (name : String) : Bool :=
  ignore_patterns.any (fun p => strContains p name)

/-- The nested `build_tree` of `get_file_tree` (lines 265-296): depth at or
past the bound returns nothing; a directory entry carries its children
(those not ignored, each recursed one level deeper, dropped when the
recursion returns nothing), or an empty child list and an error marker on
`PermissionError`; a file entry carries size and modification time when
`stat` succeeds and is returned with neither key when `stat` raises. -/
def build_tree (ignore_patterns : List String) (max_depth : Nat) :
    FSNode → String → Nat → Option TreeNode
  | node, current_path, depth =>
    if max_depth ≤ depth then none
    else
      match node with
      | .file name statResult =>
        match statResult with
        | some (sz, mtime) =>
          some { name := name, path := current_path, type := "file",
                 children := none, error := none,
                 size := some sz, modified := some mtime }
        | none =>
          some { name := name, path := current_path, type := "file",
                 children := none, error := none, size := none, modified := none }
      | .dir name children permDenied =>
        if permDenied then
          some { name := name, path := current_path, type := "directory",
                 children := some [], error := some "Permission denied",
                 size := none, modified := none }
        else
          some { name := name, path := current_path, type := "directory",
                 children := some (children.attach.filterMap (fun c =>
                   if should_ignore ignore_patterns (fsName c.1) then none
                   else build_tree ignore_patterns max_depth c.1
                     (current_path ++ "/" ++ fsName c.1) (depth + 1))),
                 error := none, size := none, modified := none }
termination_by n _ _ => sizeOf n
decreasing_by
  have h := List.sizeOf_lt_of_mem c.2
  simp
  omega

/-! ## Helper lemmas -/

theorem isPrefixList_refl (n : List Char) : isPrefixList n n = true := by
  induction n with
  | nil => rfl
  | cons a as ih => simp [isPrefixList, ih]

theorem isPrefixList_append (n h t : List Char) (hp : isPrefixList n h = true) :
    isPrefixList n (h ++ t) = true := by
  induction n generalizing h with
  | nil => rfl
  | cons a as ih =>
    cases h with
    | nil => simp [isPrefixList] at hp
    | cons b bs =>
      simp only [isPrefixList, Bool.and_eq_true] at hp
      simp [isPrefixList, hp.1, ih bs hp.2]

theorem containsSub_nil (l : List Char) : containsSub [] l = true := by
  cases l with
  | nil => rfl
  | cons b bs => simp [containsSub, isPrefixList]

theorem containsSub_append_right (n h t : List Char)
    (hc : containsSub n h = true) : containsSub n (h ++ t) = true := by
  induction h with
  | nil =>
    simp only [containsSub, List.isEmpty_iff] at hc
    subst hc
    simpa using containsSub_nil t
  | cons b bs ih =>
    simp only [containsSub, Bool.or_eq_true] at hc
    rcases hc with hc | hc
    · have : isPrefixList n ((b :: bs) ++ t) = true := isPrefixList_append n (b :: bs) t hc
      simp only [List.cons_append] at this ⊢
      simp [containsSub, this]
    · simp [containsSub, ih hc]

theorem containsSub_append_left (n h : List Char) :
    containsSub n (h ++ n) = true := by
  induction h with
  | nil =>
    cases n with
    | nil => rfl
    | cons a as => simp [containsSub, isPrefixList_refl]
  | cons b bs ih => simp [containsSub, ih]

theorem strContains_append_right (n h t : String)
    (hc : strContains n h = true) : strContains n (h ++ t) = true := by
  simpa [strContains] using containsSub_append_right n.data h.data t.data hc

theorem strContains_append_left (n h : String) :
    strContains n (h ++ n) = true := by
  simpa [strContains] using containsSub_append_left n.data h.data

theorem str_append_ne_empty (s t : String) (h : s ≠ "") : s ++ t ≠ "" := by
  intro he
  apply h
  have hd : s.data ++ t.data = ([] : List Char) := by
    have := congrArg String.data he
    simpa using this
  have hs : s.data = [] := (List.append_eq_nil.mp hd).1
  cases s
  simp_all

theorem dictMem_dictDel_self (k : String) (d : List (String × Nat)) :
    dictMem k (dictDel k d) = false := by
  induction d with
  | nil => rfl
  | cons kv tl ih =>
    by_cases h : (kv.1 == k) = true
    · simp only [dictDel, List.filter_cons, h, Bool.not_true, if_neg]
      simpa [dictDel] using ih
    · simp only [Bool.not_eq_true] at h
      simp only [dictDel, List.filter_cons, h, Bool.not_false, if_pos]
      simp only [dictMem, List.any_cons, h, Bool.false_or]
      simp only [dictMem, dictDel] at ih
      exact ih

/-- Whenever `_validate_command` rejects, the reason it pairs with the
verdict is present and non-empty. -/
theorem validate_invalid_reason (s : Settings) (c : String)
    (h : (validate_command s c).1 = false) :
    ∃ m, (validate_command s c).2 = some m ∧ m ≠ "" := by
  revert h
  unfold validate_command
  rcases hf : s.terminal_forbidden_patterns.find? (fun p => strContains p c) with _ | pat
  · simp only [hf]
    rcases hs : shlexSplit c with e | ts
    · simp only [hs]
      exact fun _ => ⟨_, rfl, str_append_ne_empty "Invalid command format: " e (by decide)⟩
    · rcases ts with _ | ⟨base, rest⟩
      · simp only [hs]
        exact fun _ => ⟨_, rfl, by decide⟩
      · simp only [hs]
        by_cases hA : s.terminal_allowed_commands.isEmpty = true
        · simp [hA]
        · by_cases h1 : base ∈ s.terminal_allowed_commands
          · simp [hA, h1]
          · by_cases h2 : basename base ∈ s.terminal_allowed_commands
            · simp [hA, h1, h2]
            · simp [hA, h1, h2]
              exact str_append_ne_empty "Command " _ (by decide)
  · simp only [hf]
    exact fun _ =>
      ⟨_, rfl, str_append_ne_empty "Command contains forbidden pattern: " pat (by decide)⟩

/-! ## Claim theorems -/

/-- C1: for every command, generated execution id and process behaviour,
`execute_command` leaves no entry for the generated execution id in
`active_processes` when it returns — on the validation-rejection path, the
spawn-failure path, the normal-completion path and the timeout path — and
the process spawned by the call, if any, is neither left running nor left
unreaped. -/
theorem execute_command_no_leak (s : Settings) (c process_id : String)
    (pid : Nat) (t : Option Nat) (b : ProcBehavior)
    (reg : List (String × Nat)) (hfresh : dictMem process_id reg = false) :
    dictMem process_id (execute_command s c process_id pid t b reg).registry = false ∧
    (execute_command s c process_id pid t b reg).procFinal ≠ ProcFinal.running := by
  unfold execute_command
  by_cases hv : (validate_command s c).1 = false
  · simp [hv, hfresh]
  · cases b with
    | spawnFail m => simp [hv, hfresh]
    | runs d so se rc =>
      by_cases hd : d ≤ effTimeout s t
      · simp [hv, hd, dictMem_dictDel_self]
      · simp [hv, hd, dictMem_dictDel_self]

/-- Witness for C1 at a concrete successful run. -/
theorem execute_command_no_leak_witness :
    dictMem "k" (execute_command defaultSettings "echo hi" "k" 7 none
      (ProcBehavior.runs 0 "hi" "" 0) []).registry = false ∧
    (execute_command defaultSettings "echo hi" "k" 7 none
      (ProcBehavior.runs 0 "hi" "" 0) []).procFinal ≠ ProcFinal.running :=
  execute_command_no_leak defaultSettings "echo hi" "k" 7 none
    (ProcBehavior.runs 0 "hi" "" 0) [] (by decide)

/-- C2: a call that completes normally reports success exactly when the
process exit code is zero and reports that exit code; a call rejected by
validation reports success false, exit code -1 and a non-empty error
string; a call whose spawn raises reports success false, exit code -1 and
the exception text as its error (non-empty whenever the exception text
is). -/
theorem execute_command_success_iff_zero (s : Settings) (c process_id : String)
    (pid : Nat) (t : Option Nat) (reg : List (String × Nat)) :
    ((validate_command s c).1 = true →
      ∀ d so se rc, d ≤ effTimeout s t →
        (((execute_command s c process_id pid t (ProcBehavior.runs d so se rc)
            reg).result.success = true) ↔ rc = 0) ∧
        (execute_command s c process_id pid t (ProcBehavior.runs d so se rc)
          reg).result.exit_code = rc) ∧
    ((validate_command s c).1 = false →
      ∀ b, (execute_command s c process_id pid t b reg).result.success = false ∧
        (execute_command s c process_id pid t b reg).result.exit_code = -1 ∧
        ∃ m, (execute_command s c process_id pid t b reg).result.error = some m ∧
          m ≠ "") ∧
    ((validate_command s c).1 = true →
      ∀ m, m ≠ "" →
        (execute_command s c process_id pid t (ProcBehavior.spawnFail m)
          reg).result.success = false ∧
        (execute_command s c process_id pid t (ProcBehavior.spawnFail m)
          reg).result.exit_code = -1 ∧
        (execute_command s c process_id pid t (ProcBehavior.spawnFail m)
          reg).result.error = some m) := by
  refine ⟨?_, ?_, ?_⟩
  · intro hv d so se rc hd
    simp [execute_command, hv, hd, beq_iff_eq]
  · intro hv b
    obtain ⟨m, hm, hne⟩ := validate_invalid_reason s c hv
    refine ⟨by simp [execute_command, hv], by simp [execute_command, hv], m, ?_, hne⟩
    simp [execute_command, hv, hm]
  · intro hv m hm
    simp [execute_command, hv]

/-- Witness for C2 at a concrete successful run with exit code zero. -/
theorem execute_command_success_iff_zero_witness :
    (((execute_command defaultSettings "echo hello" "k" 7 none
        (ProcBehavior.runs 0 "hello" "" 0) []).result.success = true) ↔ (0 : Int) = 0) ∧
    (execute_command defaultSettings "echo hello" "k" 7 none
      (ProcBehavior.runs 0 "hello" "" 0) []).result.exit_code = 0 :=
  (execute_command_success_iff_zero defaultSettings "echo hello" "k" 7 none []).1
    (by decide) 0 "hello" "" 0 (by decide)

/-- Settings with a small output cap, used to exercise truncation. -/
def smallSettings : Settings := { terminal_max_output := 5 }

/-- C3 counterexample: a run whose stdout exceeds the cap is truncated,
yet the result dictionary carries no `truncated` key at all — no return
path of `execute_command` (nor the `CommandResponse` model) ever sets one
— so the result does not have `truncated` set to true. -/
theorem execute_command_truncated_flag_counterexample :
    ("1234567890" : String).length > smallSettings.terminal_max_output ∧
    (execute_command smallSettings "echo x" "k" 7 none
      (ProcBehavior.runs 0 "1234567890" "" 0) []).result.truncated ≠ some true := by
  exact ⟨by decide, by decide⟩

/-- C3 amended: output strictly over the cap is cut to the cap with the
truncation marker appended, output at or under the cap (the cap itself
included) is returned unmodified — but the result carries no `truncated`
field on any path. -/
theorem execute_command_truncation (s : Settings) (c process_id : String)
    (pid : Nat) (t : Option Nat) (reg : List (String × Nat)) (d : Nat)
    (so se : String) (rc : Int) (hv : (validate_command s c).1 = true)
    (hd : d ≤ effTimeout s t) :
    (so.length > s.terminal_max_output →
      (execute_command s c process_id pid t (ProcBehavior.runs d so se rc)
        reg).result.stdout =
        some (strTake so s.terminal_max_output ++ "\n... [output truncated]")) ∧
    (so.length ≤ s.terminal_max_output →
      (execute_command s c process_id pid t (ProcBehavior.runs d so se rc)
        reg).result.stdout = some so) ∧
    (se.length > s.terminal_max_output →
      (execute_command s c process_id pid t (ProcBehavior.runs d so se rc)
        reg).result.stderr =
        some (strTake se s.terminal_max_output ++ "\n... [output truncated]")) ∧
    (se.length ≤ s.terminal_max_output →
      (execute_command s c process_id pid t (ProcBehavior.runs d so se rc)
        reg).result.stderr = some se) ∧
    (execute_command s c process_id pid t (ProcBehavior.runs d so se rc)
      reg).result.truncated = none := by
  refine ⟨?_, ?_, ?_, ?_, ?_⟩
  · intro h
    simp [execute_command, hv, hd, truncateOutput, h]
  · intro h
    have hng : ¬ (s.terminal_max_output < so.length) := Nat.not_lt.mpr h
    simp [execute_command, hv, hd, truncateOutput, hng]
  · intro h
    simp [execute_command, hv, hd, truncateOutput, h]
  · intro h
    have hng : ¬ (s.terminal_max_output < se.length) := Nat.not_lt.mpr h
    simp [execute_command, hv, hd, truncateOutput, hng]
  · simp [execute_command, hv, hd]

/-- Witness for the amended C3: stdout of ten characters against a cap of
five is truncated and marked, stderr of two characters is untouched. -/
theorem execute_command_truncation_witness :
    (execute_command smallSettings "echo x" "k" 7 none
      (ProcBehavior.runs 0 "1234567890" "ab" 0) []).result.stdout =
      some (strTake "1234567890" smallSettings.terminal_max_output ++
        "\n... [output truncated]") ∧
    (execute_command smallSettings "echo x" "k" 7 none
      (ProcBehavior.runs 0 "1234567890" "ab" 0) []).result.stderr = some "ab" := by
  have h := execute_command_truncation smallSettings "echo x" "k" 7 none [] 0
    "1234567890" "ab" 0 (by decide) (by decide)
  exact ⟨h.1 (by decide), h.2.2.2.1 (by decide)⟩

/-- C5: when the process outlives the effective timeout, `execute_command`
kills it and reaps it, returns success false and exit code -1 with an
error message mentioning the timeout, and no registry entry for the
generated execution id remains afterwards. -/
theorem execute_command_timeout_kills (s : Settings) (c process_id : String)
    (pid : Nat) (t : Option Nat) (reg : List (String × Nat)) (d : Nat)
    (so se : String) (rc : Int) (hv : (validate_command s c).1 = true)
    (hd : effTimeout s t < d) :
    (execute_command s c process_id pid t (ProcBehavior.runs d so se rc)
      reg).result.success = false ∧
    (execute_command s c process_id pid t (ProcBehavior.runs d so se rc)
      reg).result.exit_code = -1 ∧
    (∃ m, (execute_command s c process_id pid t (ProcBehavior.runs d so se rc)
        reg).result.error = some m ∧
      strContains "timed out" m = true ∧
      m = "Command timed out after " ++ toString (effTimeout s t) ++ " seconds") ∧
    dictMem process_id (execute_command s c process_id pid t
      (ProcBehavior.runs d so se rc) reg).registry = false ∧
    (execute_command s c process_id pid t (ProcBehavior.runs d so se rc)
      reg).procFinal = ProcFinal.killedReaped := by
  have hnd : ¬ (d ≤ effTimeout s t) := Nat.not_le.mpr hd
  refine ⟨?_, ?_, ⟨_, ?_, ?_, rfl⟩, ?_, ?_⟩
  · simp [execute_command, hv, hnd]
  · simp [execute_command, hv, hnd]
  · simp [execute_command, hv, hnd]
  · exact strContains_append_right "timed out" "Command timed out after "
      (toString (effTimeout s t) ++ " seconds") (by decide)
  · simp [execute_command, hv, hnd, dictMem_dictDel_self]
  · simp [execute_command, hv, hnd]

/-- Witness for C5: a one-second timeout against a process that would run
fifty seconds. -/
theorem execute_command_timeout_kills_witness :
    (execute_command defaultSettings "cat big" "k" 7 (some 1)
      (ProcBehavior.runs 50 "" "" 0) []).result.success = false ∧
    (execute_command defaultSettings "cat big" "k" 7 (some 1)
      (ProcBehavior.runs 50 "" "" 0) []).result.exit_code = -1 ∧
    (∃ m, (execute_command defaultSettings "cat big" "k" 7 (some 1)
        (ProcBehavior.runs 50 "" "" 0) []).result.error = some m ∧
      strContains "timed out" m = true ∧
      m = "Command timed out after " ++ toString (effTimeout defaultSettings (some 1)) ++
        " seconds") ∧
    dictMem "k" (execute_command defaultSettings "cat big" "k" 7 (some 1)
      (ProcBehavior.runs 50 "" "" 0) []).registry = false ∧
    (execute_command defaultSettings "cat big" "k" 7 (some 1)
      (ProcBehavior.runs 50 "" "" 0) []).procFinal = ProcFinal.killedReaped :=
  execute_command_timeout_kills defaultSettings "cat big" "k" 7 (some 1) [] 50
    "" "" 0 (by decide) (by decide)

/-- C10: a timed-out call returns an empty `output`, carries no `stdout`
or `stderr` keys — whatever partial output the process produced is drained
by the post-kill reap but never surfaced — while a normally completed call
does carry both keys. -/
theorem execute_command_timeout_discards_output (s : Settings)
    (c process_id : String) (pid : Nat) (t : Option Nat)
    (reg : List (String × Nat)) (d : Nat) (so se : String) (rc : Int)
    (hv : (validate_command s c).1 = true) :
    (effTimeout s t < d →
      (execute_command s c process_id pid t (ProcBehavior.runs d so se rc)
        reg).result.output = "" ∧
      (execute_command s c process_id pid t (ProcBehavior.runs d so se rc)
        reg).result.stdout = none ∧
      (execute_command s c process_id pid t (ProcBehavior.runs d so se rc)
        reg).result.stderr = none ∧
      (execute_command s c process_id pid t (ProcBehavior.runs d so se rc)
        reg).procFinal = ProcFinal.killedReaped) ∧
    (d ≤ effTimeout s t →
      (execute_command s c process_id pid t (ProcBehavior.runs d so se rc)
        reg).result.stdout ≠ none ∧
      (execute_command s c process_id pid t (ProcBehavior.runs d so se rc)
        reg).result.stderr ≠ none) := by
  constructor
  · intro hd
    have hnd : ¬ (d ≤ effTimeout s t) := Nat.not_le.mpr hd
    simp [execute_command, hv, hnd]
  · intro hd
    simp [execute_command, hv, hd]

/-- Witness for C10: the timed-out process had produced partial output on
both streams, none of it is returned. -/
theorem execute_command_timeout_discards_output_witness :
    (execute_command defaultSettings "cat big" "k" 7 (some 1)
      (ProcBehavior.runs 50 "partial stdout" "partial stderr" 0) []).result.output = "" ∧
    (execute_command defaultSettings "cat big" "k" 7 (some 1)
      (ProcBehavior.runs 50 "partial stdout" "partial stderr" 0) []).result.stdout = none ∧
    (execute_command defaultSettings "cat big" "k" 7 (some 1)
      (ProcBehavior.runs 50 "partial stdout" "partial stderr" 0) []).result.stderr = none ∧
    (execute_command defaultSettings "cat big" "k" 7 (some 1)
      (ProcBehavior.runs 50 "partial stdout" "partial stderr" 0) []).procFinal =
      ProcFinal.killedReaped :=
  (execute_command_timeout_discards_output defaultSettings "cat big" "k" 7 (some 1)
    [] 50 "partial stdout" "partial stderr" 0 (by decide)).1 (by decide)

/-- C6: a command containing a configured forbidden substring is rejected
and the reported reason contains a forbidden substring the command
contains; a forbidden-free command that tokenizes, against a non-empty
allow-list, is accepted exactly when its first token or the basename of
that token is in the allow-list, and against an empty allow-list is always
accepted. -/
theorem validate_command_policy (s : Settings) (c : String) :
    ((∃ p ∈ s.terminal_forbidden_patterns, strContains p c = true) →
      (validate_command s c).1 = false ∧
      ∃ q m, q ∈ s.terminal_forbidden_patterns ∧ strContains q c = true ∧
        (validate_command s c).2 = some m ∧ strContains q m = true) ∧
    (∀ base rest, (∀ p ∈ s.terminal_forbidden_patterns, strContains p c = false) →
      shlexSplit c = Except.ok (base :: rest) →
      ((s.terminal_allowed_commands ≠ [] →
        (((validate_command s c).1 = true) ↔
          (base ∈ s.terminal_allowed_commands ∨
            basename base ∈ s.terminal_allowed_commands))) ∧
       (s.terminal_allowed_commands = [] → (validate_command s c).1 = true))) := by
  constructor
  · intro hex
    obtain ⟨p, hp, hpc⟩ := hex
    have hsome : (s.terminal_forbidden_patterns.find?
        (fun p => strContains p c)).isSome := by
      rw [List.find?_isSome]
      exact ⟨p, hp, hpc⟩
    obtain ⟨q, hq⟩ := Option.isSome_iff_exists.mp hsome
    have hqmem : q ∈ s.terminal_forbidden_patterns := List.mem_of_find?_eq_some hq
    have hqc : strContains q c = true := by
      have h2 := List.find?_some (p := fun x => strContains x c) hq
      simpa using h2
    refine ⟨by simp [validate_command, hq],
      q, "Command contains forbidden pattern: " ++ q, hqmem, hqc,
      by simp [validate_command, hq], ?_⟩
    exact strContains_append_left q "Command contains forbidden pattern: "
  · intro base rest hforb hsplit
    have hnone : s.terminal_forbidden_patterns.find?
        (fun p => strContains p c) = none := by
      rw [List.find?_eq_none]
      intro x hx
      simp [hforb x hx]
    constructor
    · intro hne
      have hEmpty : s.terminal_allowed_commands.isEmpty = false := by
        rcases hl : s.terminal_allowed_commands.isEmpty with _ | _
        · rfl
        · exact absurd (List.isEmpty_iff.mp hl) hne
      by_cases h1 : base ∈ s.terminal_allowed_commands
      · simp [validate_command, hnone, hsplit, hEmpty, h1]
      · by_cases h2 : basename base ∈ s.terminal_allowed_commands
        · simp [validate_command, hnone, hsplit, hEmpty, h1, h2]
        · simp [validate_command, hnone, hsplit, hEmpty, h1, h2]
    · intro hE
      have hEmpty : s.terminal_allowed_commands.isEmpty = true :=
        List.isEmpty_iff.mpr hE
      simp [validate_command, hnone, hsplit, hEmpty]

/-- Witness for C6: a command containing the forbidden substring `sudo` is
rejected under the default settings. -/
theorem validate_command_policy_witness :
    (validate_command defaultSettings "sudo ls").1 = false :=
  ((validate_command_policy defaultSettings "sudo ls").1
    ⟨"sudo", by decide, by decide⟩).1

/-- C7: `_validate_command` always returns a verdict (it is a total
function of the embedding): a command that tokenizes to an empty token
list is rejected with a non-empty reason, and a command on which shell
tokenization raises is rejected with a non-empty reason instead of
propagating the exception. -/
theorem validate_command_total_on_bad_input (s : Settings) (c : String) :
    (shlexSplit c = Except.ok [] →
      (validate_command s c).1 = false ∧
      ∃ m, (validate_command s c).2 = some m ∧ m ≠ "") ∧
    (∀ e, shlexSplit c = Except.error e →
      (validate_command s c).1 = false ∧
      ∃ m, (validate_command s c).2 = some m ∧ m ≠ "") := by
  constructor
  · intro hsplit
    have hfalse : (validate_command s c).1 = false := by
      rcases hf : s.terminal_forbidden_patterns.find?
          (fun p => strContains p c) with _ | pat
      · simp [validate_command, hf, hsplit]
      · simp [validate_command, hf]
    exact ⟨hfalse, validate_invalid_reason s c hfalse⟩
  · intro e hsplit
    have hfalse : (validate_command s c).1 = false := by
      rcases hf : s.terminal_forbidden_patterns.find?
          (fun p => strContains p c) with _ | pat
      · simp [validate_command, hf, hsplit]
      · simp [validate_command, hf]
    exact ⟨hfalse, validate_invalid_reason s c hfalse⟩

/-- Witness for C7: a lone double quote fails tokenization with the
unclosed-quotation error and is rejected, not propagated. -/
theorem validate_command_total_on_bad_input_witness :
    (validate_command defaultSettings (String.singleton dquoteChar)).1 = false ∧
    ∃ m, (validate_command defaultSettings (String.singleton dquoteChar)).2 =
      some m ∧ m ≠ "" :=
  (validate_command_total_on_bad_input defaultSettings
    (String.singleton dquoteChar)).2 "No closing quotation" (by rfl)

/-- C8: a successful `kill_session` on a registered id returns true and
removes the entry, so a subsequent `send_to_session` with that id returns
the unknown-session result and a repeated `kill_session` returns false;
and `kill_session` on any id absent from the registry returns false with
the registry untouched. -/
theorem kill_session_removes_entry (sid : String) (reg : List (String × Nat))
    (b : SendBehavior) (k2 : Bool) (h : dictMem sid reg = true) :
    (kill_session sid false reg).1 = true ∧
    dictMem sid (kill_session sid false reg).2 = false ∧
    send_to_session sid b (kill_session sid false reg).2 = none ∧
    (kill_session sid k2 (kill_session sid false reg).2).1 = false ∧
    (∀ reg2, dictMem sid reg2 = false → kill_session sid k2 reg2 = (false, reg2)) := by
  have h2 : dictMem sid (dictDel sid reg) = false := dictMem_dictDel_self sid reg
  refine ⟨?_, ?_, ?_, ?_, ?_⟩
  · simp [kill_session, h]
  · simp [kill_session, h, h2]
  · simp [kill_session, send_to_session, h, h2]
  · simp [kill_session, h, h2]
  · intro reg2 hreg2
    simp [kill_session, hreg2]

/-- Witness for C8 on a registry holding one session. -/
theorem kill_session_removes_entry_witness :
    (kill_session "s" false [("s", 3)]).1 = true ∧
    dictMem "s" (kill_session "s" false [("s", 3)]).2 = false ∧
    send_to_session "s" (SendBehavior.output "x") (kill_session "s" false [("s", 3)]).2 = none ∧
    (kill_session "s" false (kill_session "s" false [("s", 3)]).2).1 = false ∧
    (∀ reg2, dictMem "s" reg2 = false → kill_session "s" false reg2 = (false, reg2)) :=
  kill_session_removes_entry "s" [("s", 3)] (SendBehavior.output "x") false (by decide)

/-- C4 counterexample: with session id `s1` already registered, a
successful spawn makes `create_interactive_session` return success rather
than an error result, so the claim that it fails on an existing id is
false on the code, which never checks for an existing entry. -/
theorem create_interactive_session_existing_id_counterexample :
    dictMem "s1" [("s1", (1 : Nat))] = true ∧
    (create_interactive_session "s1" (SpawnResult.ok 2) [("s1", 1)]).1.success = true := by
  exact ⟨by decide, by decide⟩

/-- C4 amended: `create_interactive_session` performs no existing-id
check: when the spawn succeeds it returns success and binds the id to the
new process even if the id was already registered, replacing the previous
entry. -/
theorem create_interactive_session_overwrites (sid : String) (pid : Nat)
    (reg : List (String × Nat)) (h : dictMem sid reg = true) :
    (create_interactive_session sid (SpawnResult.ok pid) reg).1.success = true ∧
    dictLookup sid (create_interactive_session sid (SpawnResult.ok pid) reg).2 =
      some pid := by
  constructor
  · rfl
  · simp [create_interactive_session, dictLookup, dictInsert, List.find?_cons]

/-- Witness for the amended C4: id `s1` bound to process 1 is rebound to
process 2. -/
theorem create_interactive_session_overwrites_witness :
    (create_interactive_session "s1" (SpawnResult.ok 2) [("s1", 1)]).1.success = true ∧
    dictLookup "s1" (create_interactive_session "s1" (SpawnResult.ok 2) [("s1", 1)]).2 =
      some 2 :=
  create_interactive_session_overwrites "s1" 2 [("s1", 1)] (by decide)

/-- C9 counterexample: a file entry whose `stat` raises is not omitted
from the tree — `build_tree` still returns it, with only name, path and
type and with no size or modification time. -/
theorem build_tree_unreadable_leaf_counterexample :
    build_tree [] 3 (FSNode.file "x" none) "/r/x" 1 =
      some { name := "x", path := "/r/x", type := "file", children := none,
             error := none, size := none, modified := none } := by
  simp [build_tree]

/-- C9 amended: within the depth bound, every file leaf is returned; when
its `stat` succeeds the node carries the size and modification time, and
when `stat` raises the node is still included, just without the size and
modified fields. -/
theorem build_tree_file_leaf (ign : List String) (max_depth : Nat)
    (name p : String) (depth : Nat) (statResult : Option (Nat × String))
    (h : depth < max_depth) :
    build_tree ign max_depth (FSNode.file name statResult) p depth =
      some { name := name, path := p, type := "file", children := none,
             error := none, size := statResult.map Prod.fst,
             modified := statResult.map Prod.snd } := by
  have hnd : ¬ (max_depth ≤ depth) := Nat.not_le.mpr h
  rcases statResult with _ | ⟨sz, mt⟩
  · simp [build_tree, hnd]
  · simp [build_tree, hnd]

/-- Witness for the amended C9 at a leaf with readable metadata. -/
theorem build_tree_file_leaf_witness :
    build_tree [] 3 (FSNode.file "y" (some (12, "2024-01-01T00:00:00"))) "/r/y" 1 =
      some { name := "y", path := "/r/y", type := "file", children := none,
             error := none, size := some 12,
             modified := some "2024-01-01T00:00:00" } :=
  build_tree_file_leaf [] 3 "y" "/r/y" 1 (some (12, "2024-01-01T00:00:00")) (by decide)

end QwenTerm
